import Mathlib

/-!
Shallow embedding of the csvsql query engine (package `csvsql`): tables,
operators, conditions, the join/filter/project pipeline, UNION merging and
the fluent query builder.  Go maps (`map[string]*Table`,
`map[string][]string`, `map[string]int`, `map[string]bool`) are modelled as
association lists in most-recent-insertion-first order, so that a first-match
lookup realises Go's overwrite-on-insert semantics.  Go errors are modelled
as `Except String` with the exact formatted message strings.
-/

set_option autoImplicit false

namespace Csvsql

/-- First-match lookup in an association list, modelling a Go map read
(the lists we build keep the most recent insertion first). -/
def lookupStr {α : Type} (k : String) : List (String × α) → Option α
  | [] => none
  | (k', v) :: rest => if k' = k then some v else lookupStr k rest

/-- Models `strings.Split(s, ".")`: split a string at every dot. -/
def splitDotAux : List Char → List Char → List String
  | [], acc => [String.mk acc.reverse]
  | '.' :: rest, acc => String.mk acc.reverse :: splitDotAux rest []
  | c :: rest, acc => splitDotAux rest (c :: acc)

/-- Result of `strings.Split(column, ".")` as used for column references. -/
def splitOnDot (s : String) : List String :=
  splitDotAux s.toList []

/-- Models `strings.TrimSpace` on the character list: drop leading and
trailing whitespace characters. -/
def trimChars (l : List Char) : List Char :=
  ((l.dropWhile Char.isWhitespace).reverse.dropWhile Char.isWhitespace).reverse

/-- Models `strings.TrimSpace` on strings. -/
def trimSpace (s : String) : String :=
  String.mk (trimChars s.toList)

/-- Models `strings.ToLower` (character-wise case mapping; ASCII letters
are what the queries and tests exercise). -/
def toLowerStr (s : String) : String :=
  String.mk (s.toList.map Char.toLower)

/-- In-memory relation, from `table.go`.  `headerMap` models the Go map
built by `for i, header := range headers { headerMap[ToLower(header)] = i }`;
we keep later insertions in front so that first-match lookup gives Go's
last-write-wins behaviour. -/
structure Table where
  name : String
  headers : List String
  rows : List (List String)
  headerMap : List (String × Nat)

/-- Builds the lowercased header index starting at position `i`
(later headers are placed in front, see `Table.headerMap`). -/
def mkHeaderMapFrom (i : Nat) : List String → List (String × Nat)
  | [] => []
  | h :: t => mkHeaderMapFrom (i + 1) t ++ [(toLowerStr h, i)]

/-- Models `NewTableFromCSV` after the file has been read: record the
headers, the rows and the case-insensitive header index. -/
def mkTable (name : String) (headers : List String) (rows : List (List String)) : Table :=
  { name := name, headers := headers, rows := rows, headerMap := mkHeaderMapFrom 0 headers }

/-- Models `Table.GetColumnIndex`: look the lowercased name up in the
header index. -/
def Table.GetColumnIndex (t : Table) (column : String) : Except String Nat :=
  match lookupStr (toLowerStr column) t.headerMap with
  | some idx => .ok idx
  | none => .error ("column " ++ column ++ " not found")

/-- Logical combinators, from `operator.go` (`LogicalOperator`). -/
inductive LogicalOperator where
  | and
  | or
deriving DecidableEq

/-- Models `LogicalOperator.Evaluate`: operands are the literal strings
"true"/"false"; anything else counts as false. -/
def LogicalOperator.Evaluate (op : LogicalOperator) (left right : String) : Except String Bool :=
  let leftBool := left = "true"
  let rightBool := right = "true"
  match op with
  | .and => .ok (leftBool && rightBool)
  | .or => .ok (leftBool || rightBool)

/-- Token of a translated LIKE pattern: a literal character, `.`
(any single character) or `.*` (any sequence). -/
inductive LikeTok where
  | lit (c : Char)
  | anyChar
  | anySeq
deriving DecidableEq

/-- Reads the regex string produced by `LikeOperator.Evaluate`'s
substitutions.  This models Go's `regexp` for the fragment those patterns
use — literal characters, `.` and `.*`; patterns containing other regex
metacharacters (such as `(`, `[`, `+`, a literal `*`) are outside the
model. -/
def likeTokenize : List Char → List LikeTok
  | [] => []
  | '.' :: '*' :: rest => .anySeq :: likeTokenize rest
  | '.' :: rest => .anyChar :: likeTokenize rest
  | c :: rest => .lit c :: likeTokenize rest

/-- Anchored match of a token list against a character list (the implicit
`^...$` anchors of the Go code: the whole input must be consumed). -/
def likeMatch : List LikeTok → List Char → Bool
  | [], s => s.isEmpty
  | .lit _ :: _, [] => false
  | .lit c :: ts, x :: xs => c = x && likeMatch ts xs
  | .anyChar :: _, [] => false
  | .anyChar :: ts, _ :: xs => likeMatch ts xs
  | .anySeq :: ts, s => s.tails.any (fun s' => likeMatch ts s')

/-- Models `LikeOperator.Evaluate`: substitute `%` by `.*` and `_` by `.`,
then match the whole value against the anchored pattern. -/
def LikeOperator.Evaluate (value pattern : String) : Except String Bool :=
  let p1 := pattern.toList.flatMap (fun c => if c = '%' then ['.', '*'] else [c])
  let p2 := p1.map (fun c => if c = '_' then '.' else c)
  .ok (likeMatch (likeTokenize p2) value.toList)

/-- Closed variant type for the Go `Operator` interface: the six
comparison operators, the two logical operators, and LIKE. -/
inductive Operator where
  | eq
  | ne
  | gt
  | ge
  | lt
  | le
  | logical (op : LogicalOperator)
  | like
deriving DecidableEq

/-- Dispatches to the three Go `Evaluate` implementations
(`ComparisonOperator`, `LogicalOperator`, `LikeOperator`).  Comparisons are
plain lexicographic string comparisons as in Go. -/
def Operator.Evaluate (op : Operator) (left right : String) : Except String Bool :=
  match op with
  | .eq => .ok (left = right)
  | .ne => .ok (left ≠ right)
  | .gt => .ok (right < left)
  | .ge => .ok (right ≤ left)
  | .lt => .ok (left < right)
  | .le => .ok (left ≤ right)
  | .logical lop => lop.Evaluate left right
  | .like => LikeOperator.Evaluate left right

/-- Models `GetOperator`: parse operator text. -/
def GetOperator (op : String) : Except String Operator :=
  if op = "=" then .ok .eq
  else if op = "!=" then .ok .ne
  else if op = ">" then .ok .gt
  else if op = ">=" then .ok .ge
  else if op = "<" then .ok .lt
  else if op = "<=" then .ok .le
  else if op = "AND" then .ok (.logical .and)
  else if op = "OR" then .ok (.logical .or)
  else if op = "LIKE" then .ok .like
  else .error ("unsupported operator: " ++ op)

/-- Per-table row data passed to condition evaluation
(Go `map[string][]string`). -/
abbrev RowMap := List (String × List String)

/-- Table catalog passed to condition evaluation (Go `map[string]*Table`). -/
abbrev Catalog := List (String × Table)

/-- Simple column-operator-value condition, from `operator.go`. -/
structure SimpleCondition where
  column : String
  op : Operator
  value : String

/-- The bare-column scan of `SimpleCondition.Evaluate`: walk the catalog
keeping the Go `foundInTable` string sentinel (empty string means "nothing
found yet") and the found index; a second hit while the sentinel is
non-empty is the ambiguity error. -/
def scanBareAux (colName : String) (found : String) (foundIdx : Nat) :
    Catalog → Except String (String × Nat)
  | [] => .ok (found, foundIdx)
  | (tName, t) :: rest =>
    match t.GetColumnIndex colName with
    | .ok idx =>
      if found ≠ "" then
        .error ("ambiguous column name: " ++ colName ++ " exists in multiple tables")
      else
        scanBareAux colName tName idx rest
    | .error _ => scanBareAux colName found foundIdx rest

/-- Models `SimpleCondition.Evaluate`: resolve the column (qualified by
table, or bare via the catalog scan), fetch the row's cell and apply the
operator. -/
def SimpleCondition.Evaluate (c : SimpleCondition) (row : RowMap) (tables : Catalog) :
    Except String Bool :=
  let resolved : Except String (String × Nat) :=
    match splitOnDot c.column with
    | [tableName, colName] =>
      match lookupStr tableName tables with
      | none => .error ("table " ++ tableName ++ " not found")
      | some table =>
        match table.GetColumnIndex colName with
        | .error e => .error ("column error: " ++ e)
        | .ok idx => .ok (tableName, idx)
    | [colName] =>
      match scanBareAux colName "" 0 tables with
      | .error e => .error e
      | .ok (foundInTable, foundIdx) =>
        if foundInTable = "" then
          .error ("column not found in any table: " ++ colName)
        else
          .ok (foundInTable, foundIdx)
    | _ => .error ("invalid column name format: " ++ c.column)
  match resolved with
  | .error e => .error e
  | .ok (tableName, colIdx) =>
    match lookupStr tableName row with
    | none => .error ("table " ++ tableName ++ " not found in row data")
    | some tableRow =>
      if tableRow.length ≤ colIdx then
        .error ("column index " ++ toString colIdx ++ " out of range for table " ++ tableName)
      else
        c.op.Evaluate (tableRow.getD colIdx "") c.value

/-- Condition expression tree, from `operator.go` (`Condition` interface:
`Simple`, `Custom`, `Composite`).  The `Option` wrappers model nil-able Go
interface and function values. -/
inductive Condition where
  | simple (c : SimpleCondition)
  | custom (fn : Option (RowMap → Catalog → Except String Bool))
  | composite (left : Option Condition) (right : Option Condition) (op : LogicalOperator)

/-- Renders a boolean the way `fmt.Sprintf("%v", b)` does. -/
def boolStr (b : Bool) : String :=
  if b then "true" else "false"

/-- Models `Condition.Evaluate` for the three variants, including the
`CompositeCondition` short-circuit: AND with a false left (or OR with a
true left) returns without evaluating the right side. -/
def Condition.Evaluate : Condition → RowMap → Catalog → Except String Bool
  | .simple c, row, tables => c.Evaluate row tables
  | .custom none, _, _ => .error "custom condition function is nil"
  | .custom (some fn), row, tables => fn row tables
  | .composite none _ _, _, _ =>
    .error "composite condition requires both left and right conditions"
  | .composite (some _) none _, _, _ =>
    .error "composite condition requires both left and right conditions"
  | .composite (some l) (some r) op, row, tables =>
    match Condition.Evaluate l row tables with
    | .error e => .error ("left condition error: " ++ e)
    | .ok leftResult =>
      if op = .and ∧ leftResult = false then .ok false
      else if op = .or ∧ leftResult = true then .ok true
      else
        match Condition.Evaluate r row tables with
        | .error e => .error ("right condition error: " ++ e)
        | .ok rightResult =>
          match op.Evaluate (boolStr leftResult) (boolStr rightResult) with
          | .error e => .error ("operator evaluation error: " ++ e)
          | .ok result => .ok result

/-- Models `NewSimpleCondition`. -/
def NewSimpleCondition (column operator value : String) : Except String SimpleCondition :=
  if column = "" then .error "column name cannot be empty"
  else
    match GetOperator operator with
    | .error _ => .error ("invalid operator: " ++ operator)
    | .ok op => .ok { column := column, op := op, value := value }

/-- Models `NewCompositeCondition` (the Go caller always passes "AND" or
"OR", which parse to logical operators). -/
def NewCompositeCondition (left right : Option Condition) (operator : String) :
    Except String Condition :=
  if left.isNone ∨ right.isNone then .error "both conditions must be non-nil"
  else
    match GetOperator operator with
    | .error _ => .error ("invalid composite operator: " ++ operator)
    | .ok (.logical lop) => .ok (.composite left right lop)
    | .ok _ => .error ("operator " ++ operator ++ " is not a logical operator")

/-- Named computed column, from `CustomSelectField` in the SELECT
component source (the `package csvsql` section of
`src/cmd/example/main.go`): a name and a function over the combined row
mapping and the catalog. -/
structure CustomSelectField where
  name : String
  func : RowMap → Catalog → Except String String

/-- SELECT clause: ordered column specs plus computed columns
(`SelectComponent` with `Columns` and `CustomColumns`, from the same
SELECT component source). -/
structure SelectComponent where
  columns : List String
  customColumns : List CustomSelectField

/-- FROM clause. -/
structure FromComponent where
  table : String

/-- WHERE clause (the condition is a nil-able Go interface value). -/
structure WhereComponent where
  condition : Option Condition

/-- Join kinds, from `join.go`. -/
inductive JoinType where
  | innerJoin
  | leftJoin
  | rightJoin
  | fullJoin
deriving DecidableEq

/-- Join predicate tree, from `join.go` (`JoinConditionEvaluator`:
column comparison, composite, custom function). -/
inductive JoinCondEval where
  | joinCond (leftTable leftCol : String) (op : Operator) (rightTable rightCol : String)
  | compositeJoin (left right : JoinCondEval) (lop : LogicalOperator)
  | customJoin (fn : RowMap → Catalog → Except String Bool)

/-- Models `JoinCondition.EvaluateJoin` / `CompositeJoinCondition.EvaluateJoin`
/ `CustomJoinCondition.EvaluateJoin` (note: composite join conditions do not
short-circuit). -/
def JoinCondEval.EvaluateJoin : JoinCondEval → RowMap → Catalog → Except String Bool
  | .joinCond leftTable leftCol op rightTable rightCol, row, tables =>
    match lookupStr leftTable tables with
    | none => .error ("left table " ++ leftTable ++ " not found")
    | some lt =>
      match lookupStr rightTable tables with
      | none => .error ("right table " ++ rightTable ++ " not found")
      | some rt =>
        match lt.GetColumnIndex leftCol with
        | .error e => .error e
        | .ok leftIdx =>
          match rt.GetColumnIndex rightCol with
          | .error e => .error e
          | .ok rightIdx =>
            match lookupStr leftTable row with
            | none => .error ("left table " ++ leftTable ++ " not found in row data")
            | some leftRow =>
              match lookupStr rightTable row with
              | none => .error ("right table " ++ rightTable ++ " not found in row data")
              | some rightRow =>
                op.Evaluate (leftRow.getD leftIdx "") (rightRow.getD rightIdx "")
  | .compositeJoin l r lop, row, tables =>
    match l.EvaluateJoin row tables with
    | .error e => .error e
    | .ok leftResult =>
      match r.EvaluateJoin row tables with
      | .error e => .error e
      | .ok rightResult =>
        match lop.Evaluate (boolStr leftResult) (boolStr rightResult) with
        | .error e => .error ("operator evaluation error: " ++ e)
        | .ok result => .ok result
  | .customJoin fn, row, tables => fn row tables

/-- JOIN clause (the condition is a nil-able Go interface value). -/
structure JoinComponent where
  table : String
  condition : Option JoinCondEval
  joinType : JoinType

/-- Union kinds, from `union.go`. -/
inductive UnionType where
  | union
  | unionAll
deriving DecidableEq

/-- Query descriptor, from `where.go`.  An inductive rather than a
structure because the UNION component stores sibling queries.  The Go
field names Select/From/Where/Joins/Union become
select/fromc/wherec/joins/union (`from` and `where` are Lean keywords). -/
inductive Query where
  | mk (select : Option SelectComponent) (fromc : Option FromComponent)
      (wherec : Option WhereComponent) (joins : List JoinComponent)
      (union : Option (UnionType × List Query))

def Query.select : Query → Option SelectComponent
  | .mk s _ _ _ _ => s

def Query.fromc : Query → Option FromComponent
  | .mk _ f _ _ _ => f

def Query.wherec : Query → Option WhereComponent
  | .mk _ _ w _ _ => w

def Query.joins : Query → List JoinComponent
  | .mk _ _ _ j _ => j

def Query.union : Query → Option (UnionType × List Query)
  | .mk _ _ _ _ u => u

/-- Engine owning the registered tables, from `engine.go`. -/
structure Engine where
  tables : Catalog

/-- Partial-join binding, from `engine.go` (`JoinedRow`). -/
structure JoinedRow where
  mainRow : List String
  mainTable : String
  joinedRows : RowMap
  isFiltered : Bool

/-- Models `Engine.validateQuery`: FROM must be present and registered;
a nil SELECT is replaced by all main-table headers.  The possibly-updated
query is returned to make the Go in-place mutation of `q.Select`
observable. -/
def Engine.validateQuery (e : Engine) (q : Query) : Except String Query :=
  match q with
  | .mk sel fc wc js un =>
    match fc with
    | none => .error "FROM clause is required"
    | some f =>
      match lookupStr f.table e.tables with
      | none => .error ("table " ++ f.table ++ " not found")
      | some mainTable =>
        match sel with
        | none =>
          .ok (.mk (some { columns := mainTable.headers, customColumns := [] }) fc wc js un)
        | some _ => .ok q

/-- Models `Engine.initializeJoinedRows`: one binding per main-table row. -/
def Engine.initializeJoinedRows (mainTable : Table) : List JoinedRow :=
  mainTable.rows.map (fun mainRow =>
    { mainRow := mainRow, mainTable := mainTable.name, joinedRows := [], isFiltered := false })

/-- Models `Engine.evaluateJoinCondition`: build the row and table maps
(later Go map writes win, so the joined table's entry shadows earlier ones)
and evaluate the join predicate; a nil condition accepts everything. -/
def Engine.evaluateJoinCondition (e : Engine) (join : JoinComponent) (jr : JoinedRow)
    (joinRow : List String) (joinedTable : Table) : Except String Bool :=
  match join.condition with
  | none => .ok true
  | some cond =>
    let rowMap : RowMap := (join.table, joinRow) :: jr.joinedRows ++ [(jr.mainTable, jr.mainRow)]
    let tableMap : Catalog :=
      (join.table, joinedTable) ::
        jr.joinedRows.filterMap (fun p => (lookupStr p.1 e.tables).map (fun t => (p.1, t))) ++
        ((lookupStr jr.mainTable e.tables).map (fun t => [(jr.mainTable, t)])).getD []
    cond.EvaluateJoin rowMap tableMap

/-- Models `Engine.createNewJoinedRow`: clone the binding and bind the
joined table's row (shadowing any previous row for that table). -/
def Engine.createNewJoinedRow (jr : JoinedRow) (tableName : String) (joinRow : List String) :
    JoinedRow :=
  { mainRow := jr.mainRow, mainTable := jr.mainTable,
    joinedRows := (tableName, joinRow) :: jr.joinedRows, isFiltered := false }

/-- Inner loop of `Engine.performJoin` for one binding: the clones emitted
for each matching row of the joined table, in row order. -/
def Engine.joinMatches (e : Engine) (join : JoinComponent) (joinedTable : Table)
    (jr : JoinedRow) : List (List String) → Except String (List JoinedRow)
  | [] => .ok []
  | joinRow :: rest =>
    match e.evaluateJoinCondition join jr joinRow joinedTable with
    | .error err => .error err
    | .ok true =>
      match e.joinMatches join joinedTable jr rest with
      | .error err => .error err
      | .ok clones => .ok (Engine.createNewJoinedRow jr join.table joinRow :: clones)
    | .ok false => e.joinMatches join joinedTable jr rest

/-- Outer loop of `Engine.performJoin`: collect the clones of every
non-filtered binding.  When a binding matches nothing and the join is
INNER, the Go loop body assigns `isFiltered` on its value copy of the
binding (`for _, jr := range *joinedRows`), so the assignment is lost and
nothing is recorded for that binding. -/
def Engine.performJoinAux (e : Engine) (join : JoinComponent) (joinedTable : Table) :
    List JoinedRow → Except String (List JoinedRow)
  | [] => .ok []
  | jr :: rest =>
    if jr.isFiltered then e.performJoinAux join joinedTable rest
    else
      match e.joinMatches join joinedTable jr joinedTable.rows with
      | .error err => .error err
      | .ok clones =>
        match e.performJoinAux join joinedTable rest with
        | .error err => .error err
        | .ok restClones => .ok (clones ++ restClones)

/-- Models `Engine.performJoin`: if any clone was emitted the clone set
replaces the binding set, otherwise the original bindings are kept
unchanged. -/
def Engine.performJoin (e : Engine) (join : JoinComponent) (joinedTable : Table)
    (bindings : List JoinedRow) : Except String (List JoinedRow) :=
  match e.performJoinAux join joinedTable bindings with
  | .error err => .error err
  | .ok newJoinedRows => .ok (if newJoinedRows.isEmpty then bindings else newJoinedRows)

/-- Models `Engine.processJoins`: perform each declared join in order. -/
def Engine.processJoins (e : Engine) (joins : List JoinComponent)
    (bindings : List JoinedRow) : Except String (List JoinedRow) :=
  match joins with
  | [] => .ok bindings
  | join :: rest =>
    match lookupStr join.table e.tables with
    | none => .error ("join table " ++ join.table ++ " not found")
    | some joinedTable =>
      match e.performJoin join joinedTable bindings with
      | .error err => .error err
      | .ok bindings' => e.processJoins rest bindings'

/-- Models `Engine.createCombinedRow` (joined rows shadow the main row on
a name collision, as later Go map writes win). -/
def Engine.createCombinedRow (jr : JoinedRow) : RowMap :=
  jr.joinedRows ++ [(jr.mainTable, jr.mainRow)]

/-- Models `Engine.applyWhereCondition` over the binding list: evaluate
the condition on every non-filtered binding and mark non-matching ones
filtered. -/
def Engine.applyWhereAux (e : Engine) (cond : Option Condition) :
    List JoinedRow → Except String (List JoinedRow)
  | [] => .ok []
  | jr :: rest =>
    if jr.isFiltered then
      match e.applyWhereAux cond rest with
      | .error err => .error err
      | .ok rest' => .ok (jr :: rest')
    else
      match cond with
      | none =>
        -- Go calls Evaluate on a nil Condition interface here (a crash);
        -- unreachable for builder-produced queries, modelled as an error.
        .error "where condition evaluation failed: nil condition"
      | some c =>
        match c.Evaluate (Engine.createCombinedRow jr) e.tables with
        | .error err => .error ("where condition evaluation failed: " ++ err)
        | .ok true =>
          match e.applyWhereAux cond rest with
          | .error err => .error err
          | .ok rest' => .ok (jr :: rest')
        | .ok false =>
          match e.applyWhereAux cond rest with
          | .error err => .error err
          | .ok rest' => .ok ({ jr with isFiltered := true } :: rest')

/-- Models `Engine.applyWhereCondition`: without a WHERE clause the
bindings pass through unchanged. -/
def Engine.applyWhereCondition (e : Engine) (q : Query) (bindings : List JoinedRow) :
    Except String (List JoinedRow) :=
  match q.wherec with
  | none => .ok bindings
  | some w => e.applyWhereAux w.condition bindings

/-- Models `prefixColumns`: qualify every column with its table name. -/
def prefixColumns (columns : List String) (tableName : String) : List String :=
  columns.map (fun c => tableName ++ "." ++ c)

/-- Models `strings.HasSuffix(col, ".*")`. -/
def endsWithDotStar (s : String) : Bool :=
  match s.toList.reverse with
  | '*' :: '.' :: _ => true
  | _ => false

/-- Models `strings.TrimSuffix(col, ".*")` on a string known to carry the
suffix. -/
def trimDotStar (s : String) : String :=
  String.mk (s.toList.reverse.drop 2).reverse

/-- State of `expandWildcards`: the seen-set (Go `map[string]bool`, kept as
a list of keys) and the expanded columns accumulated so far. -/
abbrev ExpandState := List String × List String

/-- Appends the columns not seen yet, in order, recording each in the
seen-set — the repeated `if !seen[col]` block of `expandWildcards`. -/
def addUnique (st : ExpandState) (cols : List String) : ExpandState :=
  cols.foldl (fun st c => if c ∈ st.1 then st else (c :: st.1, st.2 ++ [c])) st

/-- Columns contributed by the table called `n`, qualified; absent tables
contribute nothing (the `if table, ok := tables[tableName]; ok` check). -/
def tableCols (tables : Catalog) (n : String) : List String :=
  match lookupStr n tables with
  | some t => prefixColumns t.headers n
  | none => []

/-- One column spec of `expandWildcards`: `*` expands to the FROM table's
columns then each joined table's columns in declaration order; `table.*`
expands one table (failing if unknown); anything else is kept verbatim. -/
def expandStep (tables : Catalog) (mainTable : String) (joinedTables : List String)
    (st : ExpandState) (col : String) : Except String ExpandState :=
  if col = "*" then
    let st := addUnique st (tableCols tables mainTable)
    .ok (joinedTables.foldl (fun st tn => addUnique st (tableCols tables tn)) st)
  else if endsWithDotStar col then
    let tableName := trimDotStar col
    match lookupStr tableName tables with
    | none => .error ("table " ++ tableName ++ " not found")
    | some t => .ok (addUnique st (prefixColumns t.headers tableName))
  else
    .ok (addUnique st [col])

/-- The column loop of `expandWildcards`. -/
def expandLoop (tables : Catalog) (mainTable : String) (joinedTables : List String) :
    List String → ExpandState → Except String ExpandState
  | [], st => .ok st
  | col :: rest, st =>
    match expandStep tables mainTable joinedTables st col with
    | .error e => .error e
    | .ok st' => expandLoop tables mainTable joinedTables rest st'

/-- Models `SelectComponent.expandWildcards`. -/
def SelectComponent.expandWildcards (s : SelectComponent) (tables : Catalog)
    (mainTable : String) (joinedTables : List String) : Except String (List String) :=
  match s.columns with
  | [] => .error "SELECT must specify at least one column"
  | cols =>
    match expandLoop tables mainTable joinedTables cols ([], []) with
    | .error e => .error e
    | .ok st => .ok st.2

/-- The catalog scan of `Engine.findTableForColumn`, with the Go
`foundInTable` sentinel: a second table defining the column yields the
empty string (ambiguous). -/
def findTableScan (colName : String) (found : String) : Catalog → String
  | [] => found
  | (n, t) :: rest =>
    if (t.GetColumnIndex colName).isOk then
      if found ≠ "" then "" else findTableScan colName n rest
    else findTableScan colName found rest

/-- Models `Engine.findTableForColumn`: the main table wins outright,
otherwise scan the whole catalog for a unique owner. -/
def Engine.findTableForColumn (e : Engine) (colName mainTableName : String) : String :=
  match lookupStr mainTableName e.tables with
  | some mt =>
    if (mt.GetColumnIndex colName).isOk then mainTableName
    else findTableScan colName "" e.tables
  | none =>
    -- Go dereferences a nil *Table when the main table is unregistered;
    -- unreachable after validateQuery, modelled as the plain scan.
    findTableScan colName "" e.tables

/-- Models `Engine.extractColumnValue`: fetch the cell of `colName` from
the binding's row for `tableName`. -/
def Engine.extractColumnValue (e : Engine) (tableName colName : String) (jr : JoinedRow) :
    Except String String :=
  match lookupStr tableName e.tables with
  | none =>
    -- Go dereferences a nil *Table here; unreachable for resolved columns.
    .error ("table " ++ tableName ++ " not found")
  | some table =>
    match table.GetColumnIndex colName with
    | .error e => .error e
    | .ok idx =>
      if tableName = jr.mainTable then .ok (jr.mainRow.getD idx "")
      else
        match lookupStr tableName jr.joinedRows with
        | none => .error ("table " ++ tableName ++ " not found in joined result")
        | some joinedRow => .ok (joinedRow.getD idx "")

/-- Models `Engine.getColumnValue`: qualified columns resolve directly,
bare columns through `findTableForColumn`. -/
def Engine.getColumnValue (e : Engine) (col : String) (jr : JoinedRow) :
    Except String String :=
  match splitOnDot col with
  | [tableName, colName] => e.extractColumnValue tableName colName jr
  | [colName] =>
    let tableName := e.findTableForColumn colName jr.mainTable
    if tableName = "" then .error ("column not found in any table: " ++ colName)
    else e.extractColumnValue tableName colName jr
  | _ => .error ("invalid column name format: " ++ col)

/-- The regular-column loop of `Engine.createResultRow`. -/
def Engine.resultCells (e : Engine) (jr : JoinedRow) : List String → Except String (List String)
  | [] => .ok []
  | col :: rest =>
    match e.getColumnValue col jr with
    | .error err => .error ("failed to get column value: " ++ err)
    | .ok val =>
      match e.resultCells jr rest with
      | .error err => .error err
      | .ok vals => .ok (val :: vals)

/-- The computed-column loop of `Engine.createResultRow`. -/
def Engine.customCells (e : Engine) (jr : JoinedRow) :
    List CustomSelectField → Except String (List String)
  | [] => .ok []
  | cc :: rest =>
    match cc.func (Engine.createCombinedRow jr) e.tables with
    | .error err => .error ("failed to compute custom column " ++ cc.name ++ ": " ++ err)
    | .ok val =>
      match e.customCells jr rest with
      | .error err => .error err
      | .ok vals => .ok (val :: vals)

/-- Models `Engine.createResultRow`: regular columns then computed
columns. -/
def Engine.createResultRow (e : Engine) (columns : List String) (jr : JoinedRow)
    (sel : SelectComponent) : Except String (List String) :=
  match e.resultCells jr columns with
  | .error err => .error err
  | .ok cells =>
    match e.customCells jr sel.customColumns with
    | .error err => .error err
    | .ok custom => .ok (cells ++ custom)

/-- The output loop of `Engine.projectColumns`: one result row per
non-filtered binding. -/
def Engine.resultRows (e : Engine) (columns : List String) (sel : SelectComponent) :
    List JoinedRow → Except String (List (List String))
  | [] => .ok []
  | jr :: rest =>
    if jr.isFiltered then e.resultRows columns sel rest
    else
      match e.createResultRow columns jr sel with
      | .error err => .error err
      | .ok row =>
        match e.resultRows columns sel rest with
        | .error err => .error err
        | .ok rows => .ok (row :: rows)

/-- Models `Engine.projectColumns`: expand the SELECT list, emit the
header row, then one row per surviving binding. -/
def Engine.projectColumns (e : Engine) (q : Query) (bindings : List JoinedRow) :
    Except String (List (List String)) :=
  match q.select with
  | none =>
    -- Go dereferences a nil SELECT here; unreachable after validateQuery.
    .error "SELECT must specify at least one column"
  | some sel =>
    let joinedTables := q.joins.map (fun j => j.table)
    match q.fromc with
    | none => .error "FROM clause is required"
    | some f =>
      match sel.expandWildcards e.tables f.table joinedTables with
      | .error err => .error ("failed to expand wildcards: " ++ err)
      | .ok expandedColumns =>
        let headers := expandedColumns ++ sel.customColumns.map (fun cc => cc.name)
        match e.resultRows expandedColumns sel bindings with
        | .error err => .error err
        | .ok rows => .ok (headers :: rows)

/-- Models `Engine.executeQueryInternal`: validate, build the bindings,
join, filter, project.  The (possibly SELECT-completed) query value is
returned alongside the results so the Go in-place mutation is
observable. -/
def Engine.executeQueryInternal (e : Engine) (q : Query) :
    Except String (List (List String) × Query) :=
  match e.validateQuery q with
  | .error err => .error err
  | .ok q' =>
    match q'.fromc with
    | none => .error "FROM clause is required"
    | some f =>
      match lookupStr f.table e.tables with
      | none => .error ("table " ++ f.table ++ " not found")
      | some mainTable =>
        match e.processJoins q'.joins (Engine.initializeJoinedRows mainTable) with
        | .error err => .error err
        | .ok bindings =>
          match e.applyWhereCondition q' bindings with
          | .error err => .error err
          | .ok bindings' =>
            match e.projectColumns q' bindings' with
            | .error err => .error err
            | .ok results => .ok (results, q')

/-- Pipe-joining of `createRowKey`: a separator before every cell but the
first. -/
def joinPipe : List String → String
  | [] => ""
  | [x] => x
  | x :: rest => x ++ "|" ++ joinPipe rest

/-- Models `createRowKey`: trim every cell and join with `|`. -/
def createRowKey (row : List String) : String :=
  joinPipe (row.map trimSpace)

/-- The `processRow` closure of `Engine.mergeUnionResults`: UNION ALL
keeps every row; UNION keeps a row only when its key is unseen.  The state
is the seen-set (list of keys) and the output accumulated so far. -/
def processRow (kind : UnionType) (st : List String × List (List String)) (row : List String) :
    List String × List (List String) :=
  match kind with
  | .unionAll => (st.1, st.2 ++ [row])
  | .union =>
    let key := createRowKey row
    if key ∈ st.1 then st else (key :: st.1, st.2 ++ [row])

/-- Folds `processRow` over a block of rows. -/
def processRowsFold (kind : UnionType) (st : List String × List (List String))
    (rows : List (List String)) : List String × List (List String) :=
  rows.foldl (processRow kind) st

/-- The merge loop of `Engine.mergeUnionResults`, over the primary result
set and the already-computed sibling result sets: start from the primary
header row, process the primary's data rows, then every sibling's data
rows in declaration order.  (Go would fault on an empty primary result
set; `projectColumns` always emits a header row.) -/
def mergeUnionRows (kind : UnionType) (baseResults : List (List String))
    (unionResultsList : List (List (List String))) : List (List String) :=
  match baseResults with
  | [] => []
  | hdr :: rows =>
    (unionResultsList.foldl (fun st res => processRowsFold kind st res.tail)
      (processRowsFold kind ([], [hdr]) rows)).2

/-- The per-sibling execution inside `Engine.mergeUnionResults`
(each UNION query is executed again when merging). -/
def Engine.unionResultsOf (e : Engine) : List Query → Except String (List (List (List String)))
  | [] => .ok []
  | uq :: rest =>
    match e.executeQueryInternal uq with
    | .error err => .error err
    | .ok (res, _) =>
      match e.unionResultsOf rest with
      | .error err => .error err
      | .ok others => .ok (res :: others)

/-- Models `Engine.mergeUnionResults`. -/
def Engine.mergeUnionResults (e : Engine) (q : Query) (baseResults : List (List String)) :
    Except String (List (List String)) :=
  match q.union with
  | none => .ok baseResults
  | some (kind, queries) =>
    match e.unionResultsOf queries with
    | .error err => .error err
    | .ok lists => .ok (mergeUnionRows kind baseResults lists)

/-- The column-count validation loop of `Engine.handleUnionOperation`. -/
def Engine.checkUnionColumns (e : Engine) (baseColumns : Nat) :
    List Query → Except String Unit
  | [] => .ok ()
  | uq :: rest =>
    match e.executeQueryInternal uq with
    | .error err => .error ("union query execution failed: " ++ err)
    | .ok (unionResults, _) =>
      if unionResults.length > 0 ∧ (unionResults.headD []).length ≠ baseColumns then
        .error "UNION queries must have the same number of columns"
      else e.checkUnionColumns baseColumns rest

/-- Models `Engine.handleUnionOperation`. -/
def Engine.handleUnionOperation (e : Engine) (q : Query) (results : List (List String)) :
    Except String (List (List String)) :=
  if results.isEmpty then .ok results
  else
    match e.checkUnionColumns (results.headD []).length
        ((q.union.map Prod.snd).getD []) with
    | .error err => .error err
    | .ok _ => e.mergeUnionResults q results

/-- Models `Engine.ExecuteQuery`: run the primary pipeline, then the union
stage when present. -/
def Engine.ExecuteQuery (e : Engine) (q : Query) : Except String (List (List String)) :=
  match e.executeQueryInternal q with
  | .error err => .error ("query execution failed: " ++ err)
  | .ok (results, q') =>
    match q'.union with
    | none => .ok results
    | some _ => e.handleUnionOperation q' results

/-- Fluent builder, from `where.go`: the query being assembled plus the
first recorded error. -/
structure QueryBuilder where
  query : Query
  err : Option String

/-- The empty query `&Query{}`. -/
def emptyQuery : Query :=
  .mk none none none [] none

/-- Models `NewQuery`. -/
def NewQuery : QueryBuilder :=
  { query := emptyQuery, err := none }

def Query.setSelect (q : Query) (s : Option SelectComponent) : Query :=
  match q with
  | .mk _ f w j u => .mk s f w j u

def Query.setFromc (q : Query) (f : Option FromComponent) : Query :=
  match q with
  | .mk s _ w j u => .mk s f w j u

def Query.setWherec (q : Query) (w : Option WhereComponent) : Query :=
  match q with
  | .mk s f _ j u => .mk s f w j u

def Query.setJoins (q : Query) (j : List JoinComponent) : Query :=
  match q with
  | .mk s f w _ u => .mk s f w j u

def Query.setUnion (q : Query) (u : Option (UnionType × List Query)) : Query :=
  match q with
  | .mk s f w j _ => .mk s f w j u

/-- Models `QueryBuilder.Select`: create the SELECT component when nil,
then append the given columns to it (custom columns are preserved). -/
def QueryBuilder.Select (qb : QueryBuilder) (columns : List String) : QueryBuilder :=
  match qb.err with
  | some _ => qb
  | none =>
    match qb.query.select with
    | none =>
      let s' : SelectComponent := { columns := columns, customColumns := [] }
      { qb with query := qb.query.setSelect (some s') }
    | some s =>
      let s' := { s with columns := s.columns ++ columns }
      { qb with query := qb.query.setSelect (some s') }

/-- Models `QueryBuilder.SelectCustom`: create the SELECT component when
nil, then append the named computed column. -/
def QueryBuilder.SelectCustom (qb : QueryBuilder) (name : String)
    (fn : RowMap → Catalog → Except String String) : QueryBuilder :=
  match qb.err with
  | some _ => qb
  | none =>
    match qb.query.select with
    | some s =>
      let s' := { s with customColumns := s.customColumns ++ [{ name := name, func := fn }] }
      { qb with query := qb.query.setSelect (some s') }
    | none =>
      let s' : SelectComponent := { columns := [], customColumns := [{ name := name, func := fn }] }
      { qb with query := qb.query.setSelect (some s') }

/-- Models `QueryBuilder.From`. -/
def QueryBuilder.From (qb : QueryBuilder) (table : String) : QueryBuilder :=
  match qb.err with
  | some _ => qb
  | none => { qb with query := qb.query.setFromc (some { table := table }) }

/-- Models `QueryBuilder.Where`. -/
def QueryBuilder.Where (qb : QueryBuilder) (column operator value : String) : QueryBuilder :=
  match qb.err with
  | some _ => qb
  | none =>
    match NewSimpleCondition column operator value with
    | .error e => { qb with err := some e }
    | .ok condition =>
      { qb with query := qb.query.setWherec (some { condition := some (.simple condition) }) }

/-- Models `QueryBuilder.WhereFunc` (the argument is a nil-able Go
function value). -/
def QueryBuilder.WhereFunc (qb : QueryBuilder)
    (fn : Option (RowMap → Catalog → Except String Bool)) : QueryBuilder :=
  match qb.err with
  | some _ => qb
  | none =>
    match fn with
    | none => { qb with err := some "custom condition function cannot be nil" }
    | some f =>
      { qb with query := qb.query.setWherec (some { condition := some (.custom (some f)) }) }

/-- Models `QueryBuilder.And` (the argument is a nil-able builder
pointer). -/
def QueryBuilder.And (qb : QueryBuilder) (other : Option QueryBuilder) : QueryBuilder :=
  match qb.err with
  | some _ => qb
  | none =>
    match other with
    | none => { qb with err := some "cannot AND with nil condition" }
    | some ob =>
      match ob.query.wherec with
      | none => { qb with err := some "cannot AND with nil condition" }
      | some ow =>
        match qb.query.wherec with
        | none => { qb with err := some "cannot AND with nil condition" }
        | some w =>
          match NewCompositeCondition w.condition ow.condition "AND" with
          | .error e => { qb with err := some e }
          | .ok composite =>
            { qb with query := qb.query.setWherec (some { condition := some composite }) }

/-- Models `QueryBuilder.Or`. -/
def QueryBuilder.Or (qb : QueryBuilder) (other : Option QueryBuilder) : QueryBuilder :=
  match qb.err with
  | some _ => qb
  | none =>
    match other with
    | none => { qb with err := some "cannot OR with nil condition" }
    | some ob =>
      match ob.query.wherec with
      | none => { qb with err := some "cannot OR with nil condition" }
      | some ow =>
        match qb.query.wherec with
        | none => { qb with err := some "cannot OR with nil condition" }
        | some w =>
          match NewCompositeCondition w.condition ow.condition "OR" with
          | .error e => { qb with err := some e }
          | .ok composite =>
            { qb with query := qb.query.setWherec (some { condition := some composite }) }

/-- Models `QueryBuilder.InnerJoin`. -/
def QueryBuilder.InnerJoin (qb : QueryBuilder) (table : String) : QueryBuilder :=
  match qb.err with
  | some _ => qb
  | none =>
    let join : JoinComponent := { table := table, condition := none, joinType := .innerJoin }
    { qb with query := qb.query.setJoins (qb.query.joins ++ [join]) }

/-- Models `QueryBuilder.LeftJoin`. -/
def QueryBuilder.LeftJoin (qb : QueryBuilder) (table : String) : QueryBuilder :=
  match qb.err with
  | some _ => qb
  | none =>
    let join : JoinComponent := { table := table, condition := none, joinType := .leftJoin }
    { qb with query := qb.query.setJoins (qb.query.joins ++ [join]) }

/-- Models `QueryBuilder.RightJoin`. -/
def QueryBuilder.RightJoin (qb : QueryBuilder) (table : String) : QueryBuilder :=
  match qb.err with
  | some _ => qb
  | none =>
    let join : JoinComponent := { table := table, condition := none, joinType := .rightJoin }
    { qb with query := qb.query.setJoins (qb.query.joins ++ [join]) }

/-- Models `QueryBuilder.On`: attach an equality/comparison condition to
the most recent join clause. -/
def QueryBuilder.On (qb : QueryBuilder) (leftTable leftCol operator rightTable rightCol : String) :
    QueryBuilder :=
  match qb.err with
  | some _ => qb
  | none =>
    if qb.query.joins.isEmpty then
      { qb with err := some "No JOIN clause to add condition to" }
    else
      match GetOperator operator with
      | .error e => { qb with err := some e }
      | .ok op =>
        match qb.query.joins.getLast? with
        | none => { qb with err := some "No JOIN clause to add condition to" }
        | some lastJoin =>
          let last' := { lastJoin with
            condition := some (.joinCond leftTable leftCol op rightTable rightCol) }
          { qb with query := qb.query.setJoins (qb.query.joins.dropLast ++ [last']) }

/-- Models `QueryBuilder.OnFunc` (the argument is a nil-able Go function
value). -/
def QueryBuilder.OnFunc (qb : QueryBuilder)
    (fn : Option (RowMap → Catalog → Except String Bool)) : QueryBuilder :=
  match qb.err with
  | some _ => qb
  | none =>
    if qb.query.joins.isEmpty then
      { qb with err := some "No JOIN clause to add condition to" }
    else
      match fn with
      | none => { qb with err := some "join condition function cannot be nil" }
      | some f =>
        match qb.query.joins.getLast? with
        | none => { qb with err := some "No JOIN clause to add condition to" }
        | some lastJoin =>
          let last' := { lastJoin with condition := some (.customJoin f) }
          { qb with query := qb.query.setJoins (qb.query.joins.dropLast ++ [last']) }

/-- Models `SelectComponent.Validate`. -/
def SelectComponent.Validate (s : SelectComponent) : Except String Unit :=
  if s.columns.isEmpty && s.customColumns.isEmpty then
    .error "SELECT must specify at least one column"
  else .ok ()

/-- Models `FromComponent.Validate`. -/
def FromComponent.Validate (f : FromComponent) : Except String Unit :=
  if f.table = "" then .error "FROM must specify a table" else .ok ()

/-- Models `WhereComponent.Validate`. -/
def WhereComponent.Validate (w : WhereComponent) : Except String Unit :=
  match w.condition with
  | none => .error "WHERE must have a condition"
  | some _ => .ok ()

/-- Models `JoinComponent.Validate`. -/
def JoinComponent.Validate (j : JoinComponent) : Except String Unit :=
  if j.table = "" then .error "JOIN must specify a table"
  else
    match j.condition with
    | none => .error "JOIN must have a condition"
    | some _ => .ok ()

/-- The join-validation loop of `QueryBuilder.Build`. -/
def validateJoins : List JoinComponent → Except String Unit
  | [] => .ok ()
  | j :: rest =>
    match j.Validate with
    | .error e => .error e
    | .ok _ => validateJoins rest

/-- Models `UnionComponent.Validate`. -/
def UnionComponent.Validate (u : UnionType × List Query) : Except String Unit :=
  if u.2.isEmpty then .error "UNION must have at least one query" else .ok ()

/-- Models `QueryBuilder.Build`: surface the accumulated error, otherwise
validate every component and return the query. -/
def QueryBuilder.Build (qb : QueryBuilder) : Except String Query :=
  match qb.err with
  | some e => .error e
  | none =>
    match (match qb.query.select with
           | none => .ok ()
           | some s => s.Validate : Except String Unit) with
    | .error e => .error e
    | .ok _ =>
      match (match qb.query.fromc with
             | none => .ok ()
             | some f => f.Validate : Except String Unit) with
      | .error e => .error e
      | .ok _ =>
        match (match qb.query.wherec with
               | none => .ok ()
               | some w => w.Validate : Except String Unit) with
        | .error e => .error e
        | .ok _ =>
          match validateJoins qb.query.joins with
          | .error e => .error e
          | .ok _ =>
            match (match qb.query.union with
                   | none => .ok ()
                   | some u => UnionComponent.Validate u : Except String Unit) with
            | .error e => .error e
            | .ok _ => .ok qb.query

/-- Models `QueryBuilder.Union`: build the sibling and append it, keeping
the first UNION kind. -/
def QueryBuilder.Union (qb : QueryBuilder) (other : Option QueryBuilder) : QueryBuilder :=
  match qb.err with
  | some _ => qb
  | none =>
    match other with
    | none => { qb with err := some "cannot UNION with no queries" }
    | some ob =>
      match ob.Build with
      | .error e => { qb with err := some e }
      | .ok otherQuery =>
        match qb.query.union with
        | none => { qb with query := qb.query.setUnion (some (.union, [otherQuery])) }
        | some (k, qs) => { qb with query := qb.query.setUnion (some (k, qs ++ [otherQuery])) }

/-- Models `QueryBuilder.UnionAll`. -/
def QueryBuilder.UnionAll (qb : QueryBuilder) (other : Option QueryBuilder) : QueryBuilder :=
  match qb.err with
  | some _ => qb
  | none =>
    match other with
    | none => { qb with err := some "cannot UNION ALL with nil query" }
    | some ob =>
      match ob.Build with
      | .error e => { qb with err := some e }
      | .ok otherQuery =>
        match qb.query.union with
        | none => { qb with query := qb.query.setUnion (some (.unionAll, [otherQuery])) }
        | some (k, qs) => { qb with query := qb.query.setUnion (some (k, qs ++ [otherQuery])) }

/-- True when the table resolves the column (the `err == nil` test of the
Go scans). -/
def hasColumn (t : Table) (col : String) : Bool :=
  match t.GetColumnIndex col with
  | .ok _ => true
  | .error _ => false

/-- Specification-side first-seen de-duplication, used to state what the
seen-set threading of `expandWildcards` computes. -/
def dedupSeen (seen : List String) : List String → List String
  | [] => []
  | x :: xs => if x ∈ seen then dedupSeen seen xs else x :: dedupSeen (x :: seen) xs

/-! Concrete fixtures used by the counterexamples and witnesses. -/

/-- Table `users(id, name)` with the single row `(1, a)`. -/
def exUsers : Table := mkTable "users" ["id", "name"] [["1", "a"]]

/-- Table `orders(user_id, amt)` with the single row `(2, x)`: no order
matches the single user. -/
def exOrders : Table := mkTable "orders" ["user_id", "amt"] [["2", "x"]]

/-- Engine with `users` and `orders` registered. -/
def exEngine : Engine := { tables := [("users", exUsers), ("orders", exOrders)] }

/-- The INNER JOIN clause `INNER JOIN orders ON users.id = orders.user_id`. -/
def exJoin : JoinComponent :=
  { table := "orders", condition := some (.joinCond "users" "id" .eq "orders" "user_id"),
    joinType := .innerJoin }

/-- Query `SELECT users.name FROM users INNER JOIN orders ON users.id =
orders.user_id`. -/
def exJoinQuery : Query :=
  .mk (some { columns := ["users.name"], customColumns := [] }) (some { table := "users" }) none
    [exJoin] none

/-- The single binding produced for the `users` row. -/
def exBinding : JoinedRow :=
  { mainRow := ["1", "a"], mainTable := "users", joinedRows := [], isFiltered := false }

/-- Query `FROM users` with no SELECT clause. -/
def exNoSelectQuery : Query := .mk none (some { table := "users" }) none [] none

/-- Query `SELECT users.name FROM users` (SELECT present). -/
def exSelectQuery : Query :=
  .mk (some { columns := ["users.name"], customColumns := [] }) (some { table := "users" }) none
    [] none

/-!  Theorems settling the claims. -/

/-- C1 (code bug): an INNER JOIN binding that matches no row of the joined
table is supposed to be marked excluded and contribute no output row.  In
`performJoin` the assignment `jr.isFiltered = true` is made on the range
copy of the binding and is lost; when no clone at all is emitted the
original bindings are carried on unexcluded, so the unmatched `users` row
still produces the output row `["a"]` for `SELECT users.name FROM users
INNER JOIN orders ON users.id = orders.user_id` although no order
matches. -/
theorem innerJoin_unmatched_binding_still_emitted :
    exEngine.performJoin exJoin exOrders [exBinding] = .ok [exBinding]
    ∧ exBinding.isFiltered = false
    ∧ exEngine.executeQueryInternal exJoinQuery
        = .ok ([["users.name"], ["a"]], exJoinQuery) :=
  ⟨rfl, rfl, rfl⟩

/-- C4: composite condition evaluation short-circuits — whenever the left
side evaluates to false under AND (or true under OR), the composite
evaluates to false (resp. true) for every right condition, so the right
side can neither be observed nor fail. -/
theorem composite_short_circuit (l r : Condition) (row : RowMap) (tables : Catalog) :
    (Condition.Evaluate l row tables = .ok false →
      Condition.Evaluate (.composite (some l) (some r) .and) row tables = .ok false)
    ∧ (Condition.Evaluate l row tables = .ok true →
      Condition.Evaluate (.composite (some l) (some r) .or) row tables = .ok true) := by
  constructor <;> intro h <;> simp [Condition.Evaluate, h]

/-- Witness for C4 at a concrete input: the left side is a constant-false
(resp. constant-true) predicate and the right side is a failing predicate;
the composite still evaluates without error. -/
theorem composite_short_circuit_witness :
    Condition.Evaluate
        (.composite (some (.custom (some fun _ _ => .ok false)))
          (some (.custom (some fun _ _ => .error "boom"))) .and) [] [] = .ok false
    ∧ Condition.Evaluate
        (.composite (some (.custom (some fun _ _ => .ok true)))
          (some (.custom (some fun _ _ => .error "boom"))) .or) [] [] = .ok true :=
  ⟨(composite_short_circuit (.custom (some fun _ _ => .ok false))
      (.custom (some fun _ _ => .error "boom")) [] []).1 rfl,
    (composite_short_circuit (.custom (some fun _ _ => .ok true))
      (.custom (some fun _ _ => .error "boom")) [] []).2 rfl⟩

/-- C9: LIKE performs a fully anchored match with `%` as any sequence and
`_` as any single character — `%@gmail.com` accepts `bob@gmail.com` and
rejects both `bob@gmail.comX` (anchoring) and `bob@yahoo.com`. -/
theorem like_anchored_match :
    LikeOperator.Evaluate "bob@gmail.com" "%@gmail.com" = .ok true
    ∧ LikeOperator.Evaluate "bob@gmail.comX" "%@gmail.com" = .ok false
    ∧ LikeOperator.Evaluate "bob@yahoo.com" "%@gmail.com" = .ok false :=
  ⟨rfl, rfl, rfl⟩

/-- C3 (counterexample): executing a query built without a SELECT clause
does not leave every field unchanged — `validateQuery` overwrites the nil
Select with all main-table headers, as the returned query shows. -/
theorem query_mutation_counterexample :
    (exEngine.validateQuery exNoSelectQuery).map Query.select
        = .ok (some { columns := ["id", "name"], customColumns := [] })
    ∧ exNoSelectQuery.select = none
    ∧ (exEngine.executeQueryInternal exNoSelectQuery).map (fun p => p.2.select)
        = .ok (some { columns := ["id", "name"], customColumns := [] }) :=
  ⟨rfl, rfl, rfl⟩

/-- C3 (amended): a built Query is left entirely unchanged by execution
except that a query built without a SELECT clause has its Select field set
to all main-table headers by `validateQuery`; in particular, for every
query whose Select is present, both validation and the whole internal
pipeline return the query unmodified in every field. -/
theorem query_unchanged_when_select_present (e : Engine) (q : Query)
    (h : q.select.isSome = true) :
    (∀ q', e.validateQuery q = .ok q' → q' = q)
    ∧ (∀ res q', e.executeQueryInternal q = .ok (res, q') → q' = q) := by
  have hval : ∀ q', e.validateQuery q = .ok q' → q' = q := by
    intro q' hq
    cases q with
    | mk sel fc wc js un =>
      cases sel with
      | none => simp [Query.select] at h
      | some s =>
        cases fc with
        | none => simp [Engine.validateQuery] at hq
        | some f =>
          simp only [Engine.validateQuery] at hq
          cases hl : lookupStr f.table e.tables with
          | none => simp [hl] at hq
          | some mt =>
            simp only [hl] at hq
            exact (Except.ok.inj hq).symm
  refine ⟨hval, ?_⟩
  intro res q' hq
  simp only [Engine.executeQueryInternal] at hq
  cases hv : e.validateQuery q with
  | error err => simp [hv] at hq
  | ok q'' =>
    simp only [hv] at hq
    have hq'' : q'' = q := hval q'' hv
    subst hq''
    cases hfc : q''.fromc with
    | none => simp [hfc] at hq
    | some f =>
      simp only [hfc] at hq
      cases hl : lookupStr f.table e.tables with
      | none => simp [hl] at hq
      | some mt =>
        simp only [hl] at hq
        cases hj : e.processJoins q''.joins (Engine.initializeJoinedRows mt) with
        | error err => simp [hj] at hq
        | ok bindings =>
          simp only [hj] at hq
          cases hw : e.applyWhereCondition q'' bindings with
          | error err => simp [hw] at hq
          | ok bindings' =>
            simp only [hw] at hq
            cases hp : e.projectColumns q'' bindings' with
            | error err => simp [hp] at hq
            | ok results =>
              simp only [hp] at hq
              exact (Prod.mk.inj (Except.ok.inj hq)).2.symm

/-- Witness for C3's amended claim at a concrete input: executing
`SELECT users.name FROM users` produces exactly the query it was given
(the hypothesis that the run returned this query value is discharged by
evaluation). -/
theorem query_unchanged_when_select_present_witness :
    Query.mk (some { columns := ["users.name"], customColumns := [] })
        (some { table := "users" }) none [] none = exSelectQuery :=
  (query_unchanged_when_select_present exEngine exSelectQuery rfl).2
    [["users.name"], ["a"]]
    (Query.mk (some { columns := ["users.name"], customColumns := [] })
      (some { table := "users" }) none [] none) rfl

/-- C8: once a builder call has recorded an error, every subsequent
builder call returns the builder unmodified (query state untouched, error
preserved), and `Build` surfaces that first recorded error instead of a
query. -/
theorem builder_error_noop (qb : QueryBuilder) (e : String) (h : qb.err = some e) :
    (∀ cols, qb.Select cols = qb)
    ∧ (∀ name fn, qb.SelectCustom name fn = qb)
    ∧ (∀ t, qb.From t = qb)
    ∧ (∀ c o v, qb.Where c o v = qb)
    ∧ (∀ fn, qb.WhereFunc fn = qb)
    ∧ (∀ other, qb.And other = qb)
    ∧ (∀ other, qb.Or other = qb)
    ∧ (∀ t, qb.InnerJoin t = qb)
    ∧ (∀ t, qb.LeftJoin t = qb)
    ∧ (∀ t, qb.RightJoin t = qb)
    ∧ (∀ lt lc o rt rc, qb.On lt lc o rt rc = qb)
    ∧ (∀ fn, qb.OnFunc fn = qb)
    ∧ (∀ other, qb.Union other = qb)
    ∧ (∀ other, qb.UnionAll other = qb)
    ∧ qb.Build = .error e := by
  refine ⟨?_, ?_, ?_, ?_, ?_, ?_, ?_, ?_, ?_, ?_, ?_, ?_, ?_, ?_, ?_⟩ <;>
    first
      | intros; simp only [QueryBuilder.Select, QueryBuilder.SelectCustom, QueryBuilder.From,
          QueryBuilder.Where, QueryBuilder.WhereFunc, QueryBuilder.And, QueryBuilder.Or,
          QueryBuilder.InnerJoin, QueryBuilder.LeftJoin, QueryBuilder.RightJoin,
          QueryBuilder.On, QueryBuilder.OnFunc, QueryBuilder.Union, QueryBuilder.UnionAll,
          QueryBuilder.Build, h]

/-- Witness for C8 at a concrete input: a builder whose recorded error is
"boom" lets `Select`, `From` and `InnerJoin` pass through unchanged and
makes `Build` return "boom". -/
theorem builder_error_noop_witness :
    QueryBuilder.Select { query := emptyQuery, err := some "boom" } ["a"]
        = { query := emptyQuery, err := some "boom" }
    ∧ QueryBuilder.From { query := emptyQuery, err := some "boom" } "t"
        = { query := emptyQuery, err := some "boom" }
    ∧ QueryBuilder.InnerJoin { query := emptyQuery, err := some "boom" } "t"
        = { query := emptyQuery, err := some "boom" }
    ∧ QueryBuilder.Build { query := emptyQuery, err := some "boom" } = .error "boom" := by
  have hb := builder_error_noop { query := emptyQuery, err := some "boom" } "boom" rfl
  exact ⟨hb.1 ["a"], hb.2.2.1 "t", hb.2.2.2.2.2.2.2.1 "t",
    hb.2.2.2.2.2.2.2.2.2.2.2.2.2.2⟩

/-! Lemmas about the UNION merge fold. -/

theorem processRowsFold_append (kind : UnionType) (st : List String × List (List String))
    (l1 l2 : List (List String)) :
    processRowsFold kind st (l1 ++ l2) = processRowsFold kind (processRowsFold kind st l1) l2 := by
  simp [processRowsFold]

theorem processRowsFold_cons (kind : UnionType) (st : List String × List (List String))
    (r : List String) (l : List (List String)) :
    processRowsFold kind st (r :: l) = processRowsFold kind (processRow kind st r) l := rfl

theorem processRow_union_seen_mono {k : String} (st : List String × List (List String))
    (row : List String) (h : k ∈ st.1) : k ∈ (processRow .union st row).1 := by
  simp only [processRow]
  split
  · exact h
  · exact List.mem_cons_of_mem _ h

theorem processRowsFold_union_seen_mono {k : String} (l : List (List String)) :
    ∀ st, k ∈ st.1 → k ∈ (processRowsFold .union st l).1 := by
  induction l with
  | nil => intro st h; exact h
  | cons r rest ih => intro st h; exact ih _ (processRow_union_seen_mono st r h)

theorem processRow_union_key_mem (st : List String × List (List String)) (row : List String) :
    createRowKey row ∈ (processRow .union st row).1 := by
  simp only [processRow]
  split
  · assumption
  · exact List.mem_cons_self _ _

theorem processRow_union_skip (st : List String × List (List String)) (row : List String)
    (h : createRowKey row ∈ st.1) : processRow .union st row = st := by
  simp [processRow, h]

theorem processRow_out_mono (kind : UnionType) {x : List String}
    (st : List String × List (List String)) (row : List String) (h : x ∈ st.2) :
    x ∈ (processRow kind st row).2 := by
  cases kind with
  | unionAll => exact List.mem_append_left _ h
  | union =>
    simp only [processRow]
    split
    · exact h
    · exact List.mem_append_left _ h

theorem processRowsFold_out_mono (kind : UnionType) {x : List String} (l : List (List String)) :
    ∀ st, x ∈ st.2 → x ∈ (processRowsFold kind st l).2 := by
  induction l with
  | nil => intro st h; exact h
  | cons r rest ih => intro st h; exact ih _ (processRow_out_mono kind st r h)

theorem sibsFold_out_mono (kind : UnionType) {x : List String}
    (sibs : List (List (List String))) :
    ∀ st, x ∈ st.2 →
      x ∈ (sibs.foldl (fun st res => processRowsFold kind st res.tail) st).2 := by
  induction sibs with
  | nil => intro st h; exact h
  | cons res rest ih => intro st h; exact ih _ (processRowsFold_out_mono kind _ st h)

theorem processRowsFold_union_seen_sub {k : String} (l : List (List String)) :
    ∀ st, k ∈ (processRowsFold .union st l).1 → k ∈ st.1 ∨ k ∈ l.map createRowKey := by
  induction l with
  | nil => intro st h; exact Or.inl h
  | cons r rest ih =>
    intro st h
    rcases ih (processRow .union st r) h with h' | h'
    · revert h'
      simp only [processRow]
      split
      · intro h'; exact Or.inl h'
      · intro h'
        rcases List.mem_cons.mp h' with h'' | h''
        · exact Or.inr (by simp [h''])
        · exact Or.inl h''
    · exact Or.inr (List.mem_cons_of_mem _ h')

/-- A row whose key was already produced by an earlier row contributes
nothing to the UNION merge: dropping it leaves the merged output
unchanged. -/
theorem mergeUnionRows_dup_dropped (hdr : List String) (pre mid post : List (List String))
    (sibs : List (List (List String))) (r1 r2 : List String)
    (hkey : createRowKey r1 = createRowKey r2) :
    mergeUnionRows .union (hdr :: (pre ++ r1 :: (mid ++ r2 :: post))) sibs
      = mergeUnionRows .union (hdr :: (pre ++ r1 :: (mid ++ post))) sibs := by
  simp only [mergeUnionRows]
  suffices h : processRowsFold .union ([], [hdr]) (pre ++ r1 :: (mid ++ r2 :: post))
      = processRowsFold .union ([], [hdr]) (pre ++ r1 :: (mid ++ post)) by rw [h]
  rw [processRowsFold_append, processRowsFold_append, processRowsFold_cons,
    processRowsFold_cons, processRowsFold_append, processRowsFold_append,
    processRowsFold_cons]
  set st2 := processRow .union (processRowsFold .union ([], [hdr]) pre) r1 with hst2
  have hmem : createRowKey r2 ∈ (processRowsFold .union st2 mid).1 := by
    rw [← hkey]
    exact processRowsFold_union_seen_mono mid st2 (processRow_union_key_mem _ r1)
  rw [processRow_union_skip _ _ hmem]

/-- The first-seen row of a key is kept by the UNION merge, provided no
earlier row produced its key. -/
theorem mergeUnionRows_first_kept (hdr : List String) (pre mid post : List (List String))
    (sibs : List (List (List String))) (r1 r2 : List String)
    (hpre : createRowKey r1 ∉ pre.map createRowKey) :
    r1 ∈ mergeUnionRows .union (hdr :: (pre ++ r1 :: (mid ++ r2 :: post))) sibs := by
  simp only [mergeUnionRows]
  apply sibsFold_out_mono
  rw [processRowsFold_append, processRowsFold_cons]
  apply processRowsFold_out_mono
  have hseen : createRowKey r1 ∉ (processRowsFold .union ([], [hdr]) pre).1 := by
    intro h
    rcases processRowsFold_union_seen_sub pre ([], [hdr]) h with h' | h'
    · simp at h'
    · exact hpre h'
  simp only [processRow, hseen, if_false, ite_false]
  exact List.mem_append_right _ (List.mem_singleton.mpr rfl)

/-- C10: UNION deduplication keys are not injective on rows — two distinct
result rows whose trimmed cells pipe-join to the same string are treated
as duplicates, so the later row is dropped from the merged output and the
first-seen one is kept (assuming no earlier row already produced the
key). -/
theorem rowkey_collision_treated_as_duplicate (hdr : List String)
    (pre mid post : List (List String)) (sibs : List (List (List String)))
    (r1 r2 : List String) (_hne : r1 ≠ r2)
    (hkey : createRowKey r1 = createRowKey r2)
    (hpre : createRowKey r1 ∉ pre.map createRowKey) :
    mergeUnionRows .union (hdr :: (pre ++ r1 :: (mid ++ r2 :: post))) sibs
      = mergeUnionRows .union (hdr :: (pre ++ r1 :: (mid ++ post))) sibs
    ∧ r1 ∈ mergeUnionRows .union (hdr :: (pre ++ r1 :: (mid ++ r2 :: post))) sibs :=
  ⟨mergeUnionRows_dup_dropped hdr pre mid post sibs r1 r2 hkey,
    mergeUnionRows_first_kept hdr pre mid post sibs r1 r2 hpre⟩

/-- Witness for C10 at a concrete input: `["a|b","c"]` and `["a","b|c"]`
are distinct rows with the common key `a|b|c`; the merged output is as if
the second row were absent, and the first row is kept. -/
theorem rowkey_collision_treated_as_duplicate_witness :
    mergeUnionRows .union [["h"], ["a|b", "c"], ["a", "b|c"]] []
      = mergeUnionRows .union [["h"], ["a|b", "c"]] []
    ∧ ["a|b", "c"] ∈ mergeUnionRows .union [["h"], ["a|b", "c"], ["a", "b|c"]] [] :=
  rowkey_collision_treated_as_duplicate ["h"] [] [] [] [] ["a|b", "c"] ["a", "b|c"]
    (by decide) (by decide) (by decide)

/-- C2 (counterexample): under UNION the rows `["a","1 "]` and `["a","1"]`
— which differ only by trailing whitespace in a cell — are not both kept:
`createRowKey` trims each cell, both rows key to `a|1`, and the second is
dropped. -/
theorem union_whitespace_rows_counterexample :
    mergeUnionRows .union [["h1", "h2"], ["a", "1 "], ["a", "1"]] []
      = [["h1", "h2"], ["a", "1 "]]
    ∧ ["a", "1"] ∉ mergeUnionRows .union [["h1", "h2"], ["a", "1 "], ["a", "1"]] [] := by
  decide

/-- C2 (amended): under UNION (not UNION ALL), two result rows that differ
only by leading/trailing whitespace inside cells — i.e. whose cells are
equal after trimming — are treated as duplicates: the later row is dropped
from the merged output and the first-seen one is kept (assuming no earlier
row already produced the key). -/
theorem union_trimmed_rows_are_duplicates (hdr : List String)
    (pre mid post : List (List String)) (sibs : List (List (List String)))
    (r1 r2 : List String)
    (htrim : r1.map trimSpace = r2.map trimSpace)
    (hpre : createRowKey r1 ∉ pre.map createRowKey) :
    mergeUnionRows .union (hdr :: (pre ++ r1 :: (mid ++ r2 :: post))) sibs
      = mergeUnionRows .union (hdr :: (pre ++ r1 :: (mid ++ post))) sibs
    ∧ r1 ∈ mergeUnionRows .union (hdr :: (pre ++ r1 :: (mid ++ r2 :: post))) sibs := by
  have hkey : createRowKey r1 = createRowKey r2 := by
    simp [createRowKey, htrim]
  exact ⟨mergeUnionRows_dup_dropped hdr pre mid post sibs r1 r2 hkey,
    mergeUnionRows_first_kept hdr pre mid post sibs r1 r2 hpre⟩

/-- Witness for C2's amended claim at the concrete rows of the original
claim: merging `["a","1 "]` and `["a","1"]` keeps only the first. -/
theorem union_trimmed_rows_are_duplicates_witness :
    mergeUnionRows .union [["h1", "h2"], ["a", "1 "], ["a", "1"]] []
      = mergeUnionRows .union [["h1", "h2"], ["a", "1 "]] []
    ∧ ["a", "1 "] ∈ mergeUnionRows .union [["h1", "h2"], ["a", "1 "], ["a", "1"]] [] :=
  union_trimmed_rows_are_duplicates ["h1", "h2"] [] [] [] [] ["a", "1 "] ["a", "1"]
    (by decide) (by decide)

/-! Lemmas about the header index. -/

theorem lookupStr_append {α : Type} (k : String) (a b : List (String × α)) :
    lookupStr k (a ++ b)
      = match lookupStr k a with
        | some v => some v
        | none => lookupStr k b := by
  induction a with
  | nil => simp [lookupStr]
  | cons p rest ih =>
    obtain ⟨k', v⟩ := p
    by_cases hk : k' = k
    · simp [lookupStr, hk]
    · simp [lookupStr, hk, ih]

theorem mkHeaderMapFrom_keys (l : List String) :
    ∀ (i : Nat) (p : String × Nat), p ∈ mkHeaderMapFrom i l → p.1 ∈ l.map toLowerStr := by
  induction l with
  | nil => intro i p hp; simp [mkHeaderMapFrom] at hp
  | cons h t ih =>
    intro i p hp
    simp only [mkHeaderMapFrom, List.mem_append] at hp
    rcases hp with hp | hp
    · exact List.mem_cons_of_mem _ (ih (i + 1) p hp)
    · simp at hp
      simp [hp]

theorem lookupStr_eq_none {α : Type} (k : String) (m : List (String × α))
    (h : ∀ p ∈ m, p.1 ≠ k) : lookupStr k m = none := by
  induction m with
  | nil => rfl
  | cons p rest ih =>
    obtain ⟨k', v⟩ := p
    have hk : k' ≠ k := h (k', v) (List.mem_cons_self _ _)
    simp only [lookupStr, if_neg hk]
    exact ih (fun p hp => h p (List.mem_cons_of_mem _ hp))

theorem lookupStr_mkHeaderMapFrom_none (k : String) (l : List String) (i : Nat)
    (h : k ∉ l.map toLowerStr) : lookupStr k (mkHeaderMapFrom i l) = none :=
  lookupStr_eq_none k _ (fun p hp hk => h (hk ▸ mkHeaderMapFrom_keys l i p hp))

theorem lookupStr_mkHeaderMapFrom (l : List String) :
    ∀ (i j : Nat) (hj : j < l.length), (l.map toLowerStr).Nodup →
      lookupStr (toLowerStr (l.get ⟨j, hj⟩)) (mkHeaderMapFrom i l) = some (i + j) := by
  induction l with
  | nil => intro i j hj; exact absurd hj (by simp)
  | cons h t ih =>
    intro i j hj hnd
    simp only [List.map_cons, List.nodup_cons] at hnd
    obtain ⟨hnotin, hnd'⟩ := hnd
    cases j with
    | zero =>
      simp only [List.get, mkHeaderMapFrom]
      rw [lookupStr_append, lookupStr_mkHeaderMapFrom_none _ _ _ hnotin]
      simp [lookupStr]
    | succ j' =>
      have hj' : j' < t.length := by simpa using hj
      simp only [List.get, mkHeaderMapFrom]
      rw [lookupStr_append, ih (i + 1) j' hj' hnd']
      simp only []
      congr 1
      omega

/-- C5: for a table whose headers are pairwise distinct after lowercasing,
`GetColumnIndex` is case-insensitive and bijective — any casing of the
header at position `i` resolves to `i`, and any casing of a header at a
different position `j` never resolves to `i` (so no two distinct headers
share an index). -/
theorem getColumnIndex_case_insensitive_bijective (name : String) (headers : List String)
    (rows : List (List String)) (i : Nat) (hi : i < headers.length) (s : String)
    (hnd : (headers.map toLowerStr).Nodup)
    (hs : toLowerStr s = toLowerStr (headers.get ⟨i, hi⟩)) :
    (mkTable name headers rows).GetColumnIndex s = .ok i
    ∧ ∀ (j : Nat) (hj : j < headers.length), j ≠ i → ∀ s',
        toLowerStr s' = toLowerStr (headers.get ⟨j, hj⟩) →
        (mkTable name headers rows).GetColumnIndex s' ≠ .ok i := by
  have hidx : ∀ (j : Nat) (hj : j < headers.length) (s' : String),
      toLowerStr s' = toLowerStr (headers.get ⟨j, hj⟩) →
      (mkTable name headers rows).GetColumnIndex s' = .ok j := by
    intro j hj s' hs'
    simp only [Table.GetColumnIndex, mkTable, hs']
    rw [lookupStr_mkHeaderMapFrom headers 0 j hj hnd]
    simp
  refine ⟨hidx i hi s hs, ?_⟩
  intro j hj hji s' hs' hcontra
  rw [hidx j hj s' hs'] at hcontra
  exact hji (Except.ok.inj hcontra)

/-- Witness for C5 at a concrete input: in the table with headers
`["Id", "Name"]`, the casing `"NAME"` resolves to index 1, and no casing
of the other header resolves to index 1. -/
theorem getColumnIndex_case_insensitive_bijective_witness :
    (mkTable "users" ["Id", "Name"] []).GetColumnIndex "NAME" = .ok 1
    ∧ ∀ (j : Nat) (hj : j < (["Id", "Name"] : List String).length), j ≠ 1 → ∀ s',
        toLowerStr s' = toLowerStr ((["Id", "Name"] : List String).get ⟨j, hj⟩) →
        (mkTable "users" ["Id", "Name"] []).GetColumnIndex s' ≠ .ok 1 :=
  getColumnIndex_case_insensitive_bijective "users" ["Id", "Name"] [] 1 (by decide) "NAME"
    (by decide) (by decide)

/-! Lemmas about the bare-column catalog scan. -/

theorem scanBareAux_no_match (col : String) :
    ∀ (ts : Catalog) (f : String) (i : Nat),
      ts.filter (fun p => hasColumn p.2 col) = [] → scanBareAux col f i ts = .ok (f, i) := by
  intro ts
  induction ts with
  | nil => intro f i _; rfl
  | cons p rest ih =>
    intro f i hf
    obtain ⟨n, t⟩ := p
    cases hcol : t.GetColumnIndex col with
    | ok j =>
      exfalso
      have : hasColumn t col = true := by simp [hasColumn, hcol]
      simp [List.filter_cons, this] at hf
    | error e =>
      have hc : hasColumn t col = false := by simp [hasColumn, hcol]
      simp only [List.filter_cons, hc, Bool.false_eq_true, if_false, ite_false] at hf
      simp only [scanBareAux, hcol]
      exact ih f i hf

theorem scanBareAux_found_more (col : String) :
    ∀ (ts : Catalog) (f : String) (i : Nat), f ≠ "" →
      ts.filter (fun p => hasColumn p.2 col) ≠ [] →
      scanBareAux col f i ts
        = .error ("ambiguous column name: " ++ col ++ " exists in multiple tables") := by
  intro ts
  induction ts with
  | nil => intro f i _ hf; simp at hf
  | cons p rest ih =>
    intro f i hfne hf
    obtain ⟨n, t⟩ := p
    cases hcol : t.GetColumnIndex col with
    | ok j => simp [scanBareAux, hcol, hfne]
    | error e =>
      have hc : hasColumn t col = false := by simp [hasColumn, hcol]
      simp only [List.filter_cons, hc, Bool.false_eq_true, if_false, ite_false] at hf
      simp only [scanBareAux, hcol]
      exact ih f i hfne hf

theorem scanBareAux_first_found (col : String) :
    ∀ (ts : Catalog), (∀ p ∈ ts, p.1 ≠ "") →
      ∀ (n1 : String) (t1 : Table) (rest : Catalog),
        ts.filter (fun p => hasColumn p.2 col) = (n1, t1) :: rest →
        ∀ (idx : Nat), t1.GetColumnIndex col = .ok idx → ∀ (i0 : Nat),
          (rest = [] → scanBareAux col "" i0 ts = .ok (n1, idx))
          ∧ (rest ≠ [] → scanBareAux col "" i0 ts
              = .error ("ambiguous column name: " ++ col ++ " exists in multiple tables")) := by
  intro ts
  induction ts with
  | nil => intro _ n1 t1 rest hf; simp at hf
  | cons p ts' ih =>
    intro hne n1 t1 rest hf idx hidx i0
    obtain ⟨n, t⟩ := p
    cases hcol : t.GetColumnIndex col with
    | ok j =>
      have hc : hasColumn t col = true := by simp [hasColumn, hcol]
      simp only [List.filter_cons, hc, if_true, ite_true] at hf
      obtain ⟨hhead, htail⟩ := List.cons.inj hf
      obtain ⟨hn, ht⟩ := Prod.mk.inj hhead
      subst hn; subst ht
      have hj : j = idx := Except.ok.inj (hcol.symm.trans hidx)
      subst hj
      have hnne : n ≠ "" := hne (n, t) (List.mem_cons_self _ _)
      simp only [scanBareAux, hcol, if_neg, hnne, ne_eq, not_true_eq_false,
        not_false_eq_true, if_true, ite_true, ite_false]
      constructor
      · intro hrest
        subst hrest
        exact scanBareAux_no_match col ts' n j htail
      · intro hrest
        exact scanBareAux_found_more col ts' n j hnne (htail ▸ hrest)
    | error e =>
      have hc : hasColumn t col = false := by simp [hasColumn, hcol]
      simp only [List.filter_cons, hc, Bool.false_eq_true, if_false, ite_false] at hf
      simp only [scanBareAux, hcol]
      exact ih (fun p hp => hne p (List.mem_cons_of_mem _ hp)) n1 t1 rest hf idx hidx i0

/-- C6: a SimpleCondition with a bare column name, evaluated against a
catalog of (non-empty-named) tables: when no table defines the column,
evaluation fails with the not-found error; when at least two tables define
it, evaluation fails with the ambiguity error; when exactly one does,
resolution succeeds and the condition is evaluated by applying the
operator to that table's cell. -/
theorem bare_column_resolution (tables : Catalog) (c : SimpleCondition) (row : RowMap)
    (hbare : splitOnDot c.column = [c.column])
    (hne : ∀ p ∈ tables, p.1 ≠ "") :
    (tables.filter (fun p => hasColumn p.2 c.column) = [] →
      c.Evaluate row tables = .error ("column not found in any table: " ++ c.column))
    ∧ (∀ n1 t1 n2 t2 rest2,
        tables.filter (fun p => hasColumn p.2 c.column) = (n1, t1) :: (n2, t2) :: rest2 →
        c.Evaluate row tables
          = .error ("ambiguous column name: " ++ c.column ++ " exists in multiple tables"))
    ∧ (∀ nm t idx r, tables.filter (fun p => hasColumn p.2 c.column) = [(nm, t)] →
        t.GetColumnIndex c.column = .ok idx →
        lookupStr nm row = some r → idx < r.length →
        c.Evaluate row tables = c.op.Evaluate (r.getD idx "") c.value) := by
  refine ⟨?_, ?_, ?_⟩
  · intro hf
    have hscan := scanBareAux_no_match c.column tables "" 0 hf
    simp [SimpleCondition.Evaluate, hbare, hscan]
  · intro n1 t1 n2 t2 rest2 hf
    have ht1 : hasColumn t1 c.column = true := by
      have : (n1, t1) ∈ tables.filter (fun p => hasColumn p.2 c.column) := by
        rw [hf]; exact List.mem_cons_self _ _
      exact (List.mem_filter.mp this).2
    obtain ⟨idx, hidx⟩ : ∃ idx, t1.GetColumnIndex c.column = .ok idx := by
      revert ht1
      cases h : t1.GetColumnIndex c.column with
      | ok j => exact fun _ => ⟨j, rfl⟩
      | error e => simp [hasColumn, h]
    have hscan := (scanBareAux_first_found c.column tables hne n1 t1 ((n2, t2) :: rest2)
      hf idx hidx 0).2 (by simp)
    simp [SimpleCondition.Evaluate, hbare, hscan]
  · intro nm t idx r hf hidx hrow hlen
    have hscan := (scanBareAux_first_found c.column tables hne nm t [] hf idx hidx 0).1 rfl
    have hnm : nm ≠ "" := by
      have : (nm, t) ∈ tables.filter (fun p => hasColumn p.2 c.column) := by
        rw [hf]; exact List.mem_cons_self _ _
      exact hne (nm, t) (List.mem_filter.mp this).1
    have hnotle : ¬ (r.length ≤ idx) := by omega
    simp [SimpleCondition.Evaluate, hbare, hscan, hnm, hrow, hnotle]

/-- Witness for C6 at a concrete input: in a catalog containing only
`users(id, name)`, the bare column `name` resolves uniquely and the
condition `name = a` is evaluated on the `users` cell. -/
theorem bare_column_resolution_witness :
    SimpleCondition.Evaluate { column := "name", op := .eq, value := "a" }
        [("users", ["1", "a"])] [("users", exUsers)]
      = Operator.Evaluate .eq ((["1", "a"] : List String).getD 1 "") "a" :=
  (bare_column_resolution [("users", exUsers)] { column := "name", op := .eq, value := "a" }
      [("users", ["1", "a"])] (by decide) (by decide)).2.2
    "users" exUsers 1 ["1", "a"] rfl rfl rfl (by decide)

/-! Lemmas about wildcard expansion. -/

theorem addUnique_append (st : ExpandState) (l1 l2 : List String) :
    addUnique st (l1 ++ l2) = addUnique (addUnique st l1) l2 := by
  simp [addUnique]

theorem addUnique_snd (l : List String) :
    ∀ (seen acc : List String), (addUnique (seen, acc) l).2 = acc ++ dedupSeen seen l := by
  induction l with
  | nil => intro seen acc; simp [addUnique, dedupSeen]
  | cons x xs ih =>
    intro seen acc
    by_cases hx : x ∈ seen
    · have h1 : addUnique (seen, acc) (x :: xs) = addUnique (seen, acc) xs := by
        simp [addUnique, hx]
      rw [h1, ih, dedupSeen, if_pos hx]
    · have h1 : addUnique (seen, acc) (x :: xs) = addUnique (x :: seen, acc ++ [x]) xs := by
        simp [addUnique, hx]
      rw [h1, ih, dedupSeen, if_neg hx, List.append_assoc]
      rfl

theorem joined_fold_addUnique (tables : Catalog) (joined : List String) :
    ∀ st : ExpandState,
      joined.foldl (fun st tn => addUnique st (tableCols tables tn)) st
        = addUnique st (joined.flatMap (tableCols tables)) := by
  induction joined with
  | nil => intro st; rfl
  | cons tn rest ih =>
    intro st
    simp only [List.foldl_cons, List.flatMap_cons]
    rw [ih, addUnique_append]

theorem dedupSeen_nodup_id (l : List String) :
    ∀ seen : List String, (∀ x ∈ l, x ∉ seen) → l.Nodup → dedupSeen seen l = l := by
  induction l with
  | nil => intro seen _ _; rfl
  | cons x xs ih =>
    intro seen hdisj hnd
    rw [List.nodup_cons] at hnd
    rw [dedupSeen, if_neg (hdisj x (List.mem_cons_self _ _))]
    congr 1
    refine ih (x :: seen) ?_ hnd.2
    intro y hy
    simp only [List.mem_cons, not_or]
    exact ⟨fun h => hnd.1 (h ▸ hy), hdisj y (List.mem_cons_of_mem _ hy)⟩

/-- C7: `SELECT *` expands to the FROM table's columns (in header order)
first, then each joined table's columns in join-declaration order, each
under its own qualified `table.column` name; duplicates are removed by
exact expanded string keeping the first occurrence, so when all qualified
names are distinct (in particular when two tables merely share a column
name) the expansion is exactly that concatenation. -/
theorem wildcard_expansion_order (tables : Catalog) (mainTable : String)
    (joinedTables : List String) (mt : Table) (custom : List CustomSelectField)
    (hmt : lookupStr mainTable tables = some mt) :
    SelectComponent.expandWildcards { columns := ["*"], customColumns := custom }
        tables mainTable joinedTables
      = .ok (dedupSeen []
          (prefixColumns mt.headers mainTable ++ joinedTables.flatMap (tableCols tables)))
    ∧ ((prefixColumns mt.headers mainTable ++ joinedTables.flatMap (tableCols tables)).Nodup →
        SelectComponent.expandWildcards { columns := ["*"], customColumns := custom }
            tables mainTable joinedTables
          = .ok (prefixColumns mt.headers mainTable
              ++ joinedTables.flatMap (tableCols tables))) := by
  have hmain : tableCols tables mainTable = prefixColumns mt.headers mainTable := by
    simp [tableCols, hmt]
  have hstep : expandLoop tables mainTable joinedTables ["*"] ([], [])
      = .ok (addUnique ([], [])
          (prefixColumns mt.headers mainTable ++ joinedTables.flatMap (tableCols tables))) := by
    simp only [expandLoop, expandStep, if_pos rfl, hmain]
    rw [joined_fold_addUnique, addUnique_append]
    simp
  have hmainthm : SelectComponent.expandWildcards { columns := ["*"], customColumns := custom }
      tables mainTable joinedTables
      = .ok (dedupSeen []
          (prefixColumns mt.headers mainTable ++ joinedTables.flatMap (tableCols tables))) := by
    simp only [SelectComponent.expandWildcards, hstep]
    rw [addUnique_snd]
    rfl
  refine ⟨hmainthm, fun hnd => ?_⟩
  rw [hmainthm, dedupSeen_nodup_id _ [] (by simp) hnd]

/-- Witness for C7 at a concrete input: `users(id, name)` joined with
`orders(id, amt)` share the column name `id`, yet `SELECT *` expands to
the four distinct qualified columns in FROM-then-join order. -/
theorem wildcard_expansion_order_witness :
    SelectComponent.expandWildcards { columns := ["*"], customColumns := [] }
        [("users", mkTable "users" ["id", "name"] []), ("orders", mkTable "orders" ["id", "amt"] [])]
        "users" ["orders"]
      = .ok ["users.id", "users.name", "orders.id", "orders.amt"] := by
  have h := (wildcard_expansion_order
    [("users", mkTable "users" ["id", "name"] []), ("orders", mkTable "orders" ["id", "amt"] [])]
    "users" ["orders"] (mkTable "users" ["id", "name"] []) [] rfl).2 (by decide)
  exact h

end Csvsql
